import Mathlib

/-!
Verification of the Reminder Scheduling Engine of the study-planning app
(src/project/src/hooks/useSchedules.ts -- the useNotifications hook -- and
src/project/src/components/revision/RevisionSystem.tsx).

Times and durations are milliseconds, modelled as Int (JS numbers; all
values involved are exact integers well below 2^53, so Int is faithful).
A JS date string is represented by the result of new Date(str).getTime():
some t for a definite instant, none for NaN (absent or unparseable input).
Every comparison against NaN in JS is false; the model reflects this by
taking the none branch past every comparison.
-/

/-- The DOM NotificationPermission value: 'default' | 'granted' | 'denied'. -/
inductive NotificationPermission where
  | default
  | granted
  | denied
  deriving DecidableEq, Repr

/-- One pending setTimeout entry of notificationTimeoutsRef: the closure
captures the title and body to show and the delay it was armed with. -/
structure PendingTimer where
  title : String
  body : String
  delay : Int
  deriving DecidableEq, Repr

/-- A surfaced notification (a `new Notification(title, {body, tag})` call):
the observable output of showNotification when permission is granted. -/
structure Emit where
  title : String
  body : String
  tag : String
  deriving DecidableEq, Repr

/-- A revision item as consumed by the hook: id, title, review count and
the parsed next_review instant (none when absent or unparseable). -/
structure RevisionItem where
  id : String
  title : String
  review_count : Nat
  next_review : Option Int
  deriving DecidableEq, Repr

/-- State of the useNotifications hook: the permission flag, the
checkIntervalRef (holding the token of the armed setInterval, if any),
the set of live host interval timers (token, period) together with a
fresh-token counter, the notificationTimeoutsRef map (id to pending
timeout), and the log of surfaced notifications. -/
structure NotifState where
  permission : NotificationPermission
  checkInterval : Option Nat
  hostIntervals : List (Nat × Int)
  nextToken : Nat
  timeouts : List (String × PendingTimer)
  emitted : List Emit
  deriving DecidableEq, Repr

/-! JS Map semantics on the timeouts association list. Map.get, Map.set,
Map.delete and Map.size on a string-keyed map; set replaces the entry for
an existing key. Replacement is modelled as erase-then-append, which
agrees with Map semantics on lookup, count and membership (only the
iteration order differs, and nothing in the hook observes that order). -/

/-- Remove every entry with the given key (Map.delete / clearTimeout). -/
def eraseKey : List (String × PendingTimer) → String → List (String × PendingTimer)
  | [], _ => []
  | p :: r, id => if p.1 = id then eraseKey r id else p :: eraseKey r id

/-- Look up the entry for a key (Map.get). -/
def getEntry : List (String × PendingTimer) → String → Option PendingTimer
  | [], _ => none
  | p :: r, id => if p.1 = id then some p.2 else getEntry r id

/-- Number of entries held for a key. -/
def countFor : List (String × PendingTimer) → String → Nat
  | [], _ => 0
  | p :: r, id => (if p.1 = id then 1 else 0) + countFor r id

/-- showNotification: surfaces a notification only when permission is
granted; otherwise nothing happens (the auto-close after 10 s does not
change any modelled state). -/
def showNotification (s : NotifState) (title body tag : String) : NotifState :=
  if s.permission = NotificationPermission.granted then
    { s with emitted := s.emitted ++ [{ title := title, body := body, tag := tag }] }
  else s

/-- scheduleNotification: returns early unless permission is granted;
clears any existing timeout for the id, arms a new setTimeout with the
given delay and records it in the map under the id. -/
def scheduleNotification (s : NotifState) (id title body : String) (delay : Int) :
    NotifState :=
  if s.permission = NotificationPermission.granted then
    { s with timeouts :=
        eraseKey s.timeouts id ++ [(id, { title := title, body := body, delay := delay })] }
  else s

/-- cancelNotification: clearTimeout plus Map.delete for the id; a no-op
when the id has no pending timeout. -/
def cancelNotification (s : NotifState) (id : String) : NotifState :=
  { s with timeouts := eraseKey s.timeouts id }

/-- The host firing the pending timeout of the given id: the stored
closure shows the notification tagged with the id and deletes the map
entry. Only a pending (not cancelled, not replaced) timeout can fire. -/
def fireTimer (s : NotifState) (id : String) : NotifState :=
  match getEntry s.timeouts id with
  | some t =>
      let s1 := showNotification s t.title t.body id
      { s1 with timeouts := eraseKey s1.timeouts id }
  | none => s

/-- The 7-day scheduling horizon in milliseconds, written as in the source. -/
def horizonMs : Int := 7 * 24 * 60 * 60 * 1000

/-- scheduleRevisionReminder: delay = new Date(nextReviewTime).getTime() - now.
When the date is NaN (none) both comparisons are false and nothing
happens. Otherwise: overdue (delay <= 0) shows the notification at once;
a delay within 7 days arms a timeout; a longer delay does nothing. -/
def scheduleRevisionReminder (s : NotifState) (itemId itemTitle : String)
    (nextReviewTime : Option Int) (now : Int) : NotifState :=
  match nextReviewTime with
  | none => s
  | some nextReview =>
      let delay := nextReview - now
      if delay ≤ 0 then
        showNotification s "🔔 JEE Revision Reminder"
          ("⚠️ OVERDUE: Time to review \"" ++ itemTitle ++ "\"") itemId
      else if delay ≤ 7 * 24 * 60 * 60 * 1000 then
        scheduleNotification s itemId "🔔 JEE Revision Reminder"
          ("📚 Time to review: \"" ++ itemTitle ++ "\"") delay
      else s

/-- The filter applied by checkOverdueItems: item.next_review is truthy
and new Date(item.next_review) <= now (false for an invalid date). -/
def isOverdueItem (now : Int) (it : RevisionItem) : Bool :=
  match it.next_review with
  | some t => decide (t ≤ now)
  | none => false

/-- The notification checkOverdueItems surfaces for one overdue item. -/
def overdueEmit (it : RevisionItem) : Emit :=
  { title := "🔔 JEE Revision Overdue"
    body := "⚠️ OVERDUE: \"" ++ it.title ++ "\" needs review!"
    tag := it.id }

/-- checkOverdueItems: filters the overdue items, shows a notification for
each (gated inside showNotification) and returns the overdue subset. -/
def checkOverdueItems (s : NotifState) (items : List RevisionItem) (now : Int) :
    NotifState × List RevisionItem :=
  let overdueItems := items.filter (isOverdueItem now)
  let s1 := overdueItems.foldl (fun st it =>
    showNotification st "🔔 JEE Revision Overdue"
      ("⚠️ OVERDUE: \"" ++ it.title ++ "\" needs review!") it.id) s
  (s1, overdueItems)

/-- The sweeper period: 5 minutes in milliseconds. -/
def sweepPeriodMs : Int := 5 * 60 * 1000

/-- startPeriodicCheck: clears the existing interval if checkIntervalRef
holds one, runs checkOverdueItems once immediately, then arms a fresh
setInterval with the 5-minute period and stores its token in the ref.
No permission test appears anywhere in this function. -/
def startPeriodicCheck (s : NotifState) (items : List RevisionItem) (now : Int) :
    NotifState :=
  let s1 :=
    match s.checkInterval with
    | some tok => { s with hostIntervals := s.hostIntervals.filter (fun p => p.1 ≠ tok) }
    | none => s
  let s2 := (checkOverdueItems s1 items now).1
  { s2 with
      hostIntervals := s2.hostIntervals ++ [(s2.nextToken, 5 * 60 * 1000)]
      checkInterval := some s2.nextToken
      nextToken := s2.nextToken + 1 }

/-- The cleanup closure returned by startPeriodicCheck (also the first
half of stopAllNotifications): reads the current checkIntervalRef, clears
that interval and nulls the ref. -/
def stopPeriodicCheck (s : NotifState) : NotifState :=
  match s.checkInterval with
  | some tok =>
      { s with
          hostIntervals := s.hostIntervals.filter (fun p => p.1 ≠ tok)
          checkInterval := none }
  | none => s

/-- One tick of the host interval timer: it occurs only while a live
interval exists, and repeats the checkOverdueItems evaluation. -/
def sweepTick (s : NotifState) (items : List RevisionItem) (now : Int) : NotifState :=
  if s.hostIntervals = [] then s else (checkOverdueItems s items now).1

/-- stopAllNotifications: clears the periodic interval and nulls the ref,
then clearTimeouts every pending notification and empties the map. -/
def stopAllNotifications (s : NotifState) : NotifState :=
  let s1 := stopPeriodicCheck s
  { s1 with timeouts := [] }

/-- getScheduledCount: the size of the timeouts map. -/
def getScheduledCount (s : NotifState) : Nat :=
  s.timeouts.length

/-- The spaced-repetition interval table of handleReview:
1 h, 1 d, 3 d, 1 w, 2 w in milliseconds. -/
def intervals : List Int := [3600000, 86400000, 259200000, 604800000, 1209600000]

/-- The interval lookup the spec calls nextDelay, exactly the expression
in handleReview: intervals[Math.min(reviewCount, intervals.length - 1)]. -/
def nextDelay (reviewCount : Nat) : Int :=
  intervals.getD (min reviewCount (intervals.length - 1)) 0

/-- Modelled from the spec: the increment_review_count database RPC is not
under src (no migration defines it); per the spec the review count is
bumped exactly once per completed review and next_review is set to the
supplied date. -/
def increment_review_count (it : RevisionItem) (next_review_date : Int) : RevisionItem :=
  { it with review_count := it.review_count + 1, next_review := some next_review_date }

/-- markAsReviewed (useRevisionItems): computes nextReview as now plus 24
hours, calls the RPC with it, and when permission is granted schedules the
reminder from the returned row. Returns the updated row. -/
def markAsReviewed (s : NotifState) (it : RevisionItem) (now : Int) :
    NotifState × RevisionItem :=
  let nextReview := now + 24 * 60 * 60 * 1000
  let data := increment_review_count it nextReview
  let s1 :=
    if s.permission = NotificationPermission.granted then
      scheduleRevisionReminder s data.id data.title data.next_review now
    else s
  (s1, data)

/-- handleReview (RevisionSystem): marks the item reviewed, computes the
table interval from the pre-review count, and when permission is granted
calls scheduleRevisionReminder with only two arguments: the item title
lands in the itemId slot, the interval (stringified) in the itemTitle
slot, and nextReviewTime is undefined, which parses to NaN (none). -/
def handleReview (s : NotifState) (item : RevisionItem) (now : Int) :
    NotifState × RevisionItem :=
  let r := markAsReviewed s item now
  let nextInterval := intervals.getD (min item.review_count (intervals.length - 1)) 0
  let s2 :=
    if r.1.permission = NotificationPermission.granted then
      scheduleRevisionReminder r.1 item.title (toString nextInterval) none now
    else r.1
  (s2, r.2)

/-- The sweeper-handle invariant holding in every reachable state: the
live host intervals are exactly the one the ref points at (period 5 min),
and any stored token is older than the fresh-token counter. -/
def sweeperInv (s : NotifState) : Prop :=
  s.hostIntervals =
    (match s.checkInterval with
     | some tok => [(tok, (5 : Int) * 60 * 1000)]
     | none => []) ∧
  (∀ tok ∈ s.checkInterval.toList, tok < s.nextToken)

/-- A fresh hook state with permission granted (used as concrete input). -/
def sg : NotifState :=
  { permission := NotificationPermission.granted
    checkInterval := none
    hostIntervals := []
    nextToken := 0
    timeouts := []
    emitted := [] }

/-- A fresh hook state with permission still at its default value. -/
def s0 : NotifState :=
  { permission := NotificationPermission.default
    checkInterval := none
    hostIntervals := []
    nextToken := 0
    timeouts := []
    emitted := [] }

/-- Concrete item with review_count 0, due exactly at the epoch. -/
def itemA : RevisionItem :=
  { id := "A", title := "Kinematics", review_count := 0, next_review := some 0 }

/-- Concrete item that is 10 minutes overdue at now = 0. -/
def itemB : RevisionItem :=
  { id := "B", title := "Optics", review_count := 2, next_review := some (-600000) }

/-! Helper lemmas about the association-list registry. -/

theorem getEntry_eraseKey_self (r : List (String × PendingTimer)) (id : String) :
    getEntry (eraseKey r id) id = none := by
  induction r with
  | nil => rfl
  | cons p r ih =>
      by_cases h : p.1 = id
      · simpa [eraseKey, h] using ih
      · simpa [eraseKey, getEntry, h] using ih

theorem countFor_eraseKey_self (r : List (String × PendingTimer)) (id : String) :
    countFor (eraseKey r id) id = 0 := by
  induction r with
  | nil => rfl
  | cons p r ih =>
      by_cases h : p.1 = id
      · simpa [eraseKey, h] using ih
      · simpa [eraseKey, countFor, h] using ih

theorem countFor_eraseKey_ne (r : List (String × PendingTimer)) (id j : String)
    (h : j ≠ id) : countFor (eraseKey r id) j = countFor r j := by
  induction r with
  | nil => rfl
  | cons p r ih =>
      by_cases hp : p.1 = id
      · have hpj : ¬ p.1 = j := fun hj => h (hj.symm.trans hp)
        have hij : ¬ id = j := fun hij => h hij.symm
        simp [eraseKey, countFor, hp, hpj, hij, ih]
      · simp [eraseKey, countFor, hp, ih]

theorem countFor_append (r1 r2 : List (String × PendingTimer)) (id : String) :
    countFor (r1 ++ r2) id = countFor r1 id + countFor r2 id := by
  induction r1 with
  | nil => simp [countFor]
  | cons p r ih => simp [countFor, ih]; omega

theorem getEntry_append (r1 r2 : List (String × PendingTimer)) (id : String) :
    getEntry (r1 ++ r2) id =
      (match getEntry r1 id with
       | some t => some t
       | none => getEntry r2 id) := by
  induction r1 with
  | nil => simp [getEntry]
  | cons p r ih =>
      by_cases h : p.1 = id
      · simp [getEntry, h]
      · simp [getEntry, h, ih]

theorem getEntry_set (r : List (String × PendingTimer)) (id : String) (t : PendingTimer) :
    getEntry (eraseKey r id ++ [(id, t)]) id = some t := by
  rw [getEntry_append, getEntry_eraseKey_self]
  simp [getEntry]

theorem countFor_set (r : List (String × PendingTimer)) (id : String) (t : PendingTimer) :
    countFor (eraseKey r id ++ [(id, t)]) id = 1 := by
  rw [countFor_append, countFor_eraseKey_self]
  simp [countFor]

theorem eraseKey_append (r1 r2 : List (String × PendingTimer)) (id : String) :
    eraseKey (r1 ++ r2) id = eraseKey r1 id ++ eraseKey r2 id := by
  induction r1 with
  | nil => rfl
  | cons p r ih =>
      by_cases h : p.1 = id
      · simp [eraseKey, h, ih]
      · simp [eraseKey, h, ih]

theorem eraseKey_eraseKey_self (r : List (String × PendingTimer)) (id : String) :
    eraseKey (eraseKey r id) id = eraseKey r id := by
  induction r with
  | nil => rfl
  | cons p r ih =>
      by_cases h : p.1 = id
      · simp [eraseKey, h, ih]
      · simp [eraseKey, h, ih]

/-! Helper lemmas about the hook operations. -/

theorem showNotification_granted (s : NotifState) (title body tag : String)
    (h : s.permission = NotificationPermission.granted) :
    showNotification s title body tag =
      { s with emitted := s.emitted ++ [{ title := title, body := body, tag := tag }] } := by
  simp [showNotification, h]

theorem showNotification_ungranted (s : NotifState) (title body tag : String)
    (h : s.permission ≠ NotificationPermission.granted) :
    showNotification s title body tag = s := by
  simp [showNotification, h]

theorem checkOverdue_foldl_granted (l : List RevisionItem) (s : NotifState)
    (h : s.permission = NotificationPermission.granted) :
    l.foldl (fun st it =>
      showNotification st "🔔 JEE Revision Overdue"
        ("⚠️ OVERDUE: \"" ++ it.title ++ "\" needs review!") it.id) s
    = { s with emitted := s.emitted ++ l.map overdueEmit } := by
  induction l generalizing s with
  | nil => simp
  | cons a l ih =>
      rw [List.foldl_cons, showNotification_granted _ _ _ _ h, ih _ (by simp [h])]
      simp [overdueEmit]

theorem checkOverdue_foldl_ungranted (l : List RevisionItem) (s : NotifState)
    (h : s.permission ≠ NotificationPermission.granted) :
    l.foldl (fun st it =>
      showNotification st "🔔 JEE Revision Overdue"
        ("⚠️ OVERDUE: \"" ++ it.title ++ "\" needs review!") it.id) s = s := by
  induction l with
  | nil => rfl
  | cons a l ih => rw [List.foldl_cons, showNotification_ungranted _ _ _ _ h, ih]

theorem checkOverdueItems_fst_granted (s : NotifState) (items : List RevisionItem)
    (now : Int) (h : s.permission = NotificationPermission.granted) :
    (checkOverdueItems s items now).1 =
      { s with emitted := s.emitted ++ (items.filter (isOverdueItem now)).map overdueEmit } := by
  simp only [checkOverdueItems]
  exact checkOverdue_foldl_granted _ _ h

theorem checkOverdueItems_fst_ungranted (s : NotifState) (items : List RevisionItem)
    (now : Int) (h : s.permission ≠ NotificationPermission.granted) :
    (checkOverdueItems s items now).1 = s := by
  simp only [checkOverdueItems]
  exact checkOverdue_foldl_ungranted _ _ h

theorem checkOverdueItems_snd (s : NotifState) (items : List RevisionItem) (now : Int) :
    (checkOverdueItems s items now).2 = items.filter (isOverdueItem now) := rfl

/-- Claim C1: with permission granted, for an item whose next-review value
parses to a definite instant, scheduleRevisionReminder follows the
three-way policy: at or before now it emits the overdue notification at
once and adds no registry entry; within the 7-day horizon it installs
exactly one pending timer for the id, with delay nextReview - now, and
emits nothing; beyond the horizon it installs no timer and emits nothing. -/
theorem c1_reminder_policy (s : NotifState) (itemId itemTitle : String)
    (nextReview now : Int)
    (hperm : s.permission = NotificationPermission.granted) :
    (nextReview - now ≤ 0 →
      (scheduleRevisionReminder s itemId itemTitle (some nextReview) now).timeouts
          = s.timeouts ∧
      (scheduleRevisionReminder s itemId itemTitle (some nextReview) now).emitted
          = s.emitted ++ [{ title := "🔔 JEE Revision Reminder",
                            body := "⚠️ OVERDUE: Time to review \"" ++ itemTitle ++ "\"",
                            tag := itemId }]) ∧
    (0 < nextReview - now → nextReview - now ≤ horizonMs →
      countFor (scheduleRevisionReminder s itemId itemTitle (some nextReview) now).timeouts
          itemId = 1 ∧
      getEntry (scheduleRevisionReminder s itemId itemTitle (some nextReview) now).timeouts
          itemId
        = some { title := "🔔 JEE Revision Reminder",
                 body := "📚 Time to review: \"" ++ itemTitle ++ "\"",
                 delay := nextReview - now } ∧
      (scheduleRevisionReminder s itemId itemTitle (some nextReview) now).emitted
          = s.emitted) ∧
    (horizonMs < nextReview - now →
      scheduleRevisionReminder s itemId itemTitle (some nextReview) now = s) := by
  refine ⟨fun h => ?_, fun h1 h2 => ?_, fun h => ?_⟩
  · constructor <;> simp [scheduleRevisionReminder, h, showNotification, hperm]
  · have h2a : nextReview - now ≤ 604800000 := by simpa [horizonMs] using h2
    have hn0 : ¬ (nextReview - now ≤ 0) := by omega
    have hh : nextReview ≤ 604800000 + now := by omega
    refine ⟨?_, ?_, ?_⟩ <;>
      simp [scheduleRevisionReminder, hn0, hh, scheduleNotification, hperm,
        countFor_set, getEntry_set]
  · have ha : (604800000 : Int) < nextReview - now := by simpa [horizonMs] using h
    have hn0 : ¬ (nextReview - now ≤ 0) := by omega
    have hh : ¬ (nextReview ≤ 604800000 + now) := by omega
    simp [scheduleRevisionReminder, hn0, hh]

/-- Closed instance of c1_reminder_policy at a concrete input. -/
theorem c1_reminder_policy_witness :
    countFor (scheduleRevisionReminder sg "A" "Kinematics" (some 1000) 0).timeouts "A" = 1 :=
  ((c1_reminder_policy sg "A" "Kinematics" 1000 0 rfl).2.1 (by decide) (by decide)).1

/-- Claim C2: with permission granted, scheduling twice for the same id
leaves exactly one pending timer holding the second delay; when that timer
fires it performs the second action (the first never fires) and the
registry entry for the id is gone; cancelNotification also leaves no
entry; and scheduleNotification preserves the at-most-one-entry-per-id
invariant of the registry. -/
theorem c2_registry_single_entry (s : NotifState) (id t1 b1 t2 b2 : String)
    (d1 d2 : Int) (hperm : s.permission = NotificationPermission.granted) :
    countFor (scheduleNotification (scheduleNotification s id t1 b1 d1) id t2 b2 d2).timeouts
        id = 1 ∧
    getEntry (scheduleNotification (scheduleNotification s id t1 b1 d1) id t2 b2 d2).timeouts
        id = some { title := t2, body := b2, delay := d2 } ∧
    (fireTimer (scheduleNotification (scheduleNotification s id t1 b1 d1) id t2 b2 d2)
        id).emitted
      = s.emitted ++ [{ title := t2, body := b2, tag := id }] ∧
    countFor (fireTimer (scheduleNotification (scheduleNotification s id t1 b1 d1) id t2 b2 d2)
        id).timeouts id = 0 ∧
    countFor (cancelNotification
        (scheduleNotification (scheduleNotification s id t1 b1 d1) id t2 b2 d2) id).timeouts
        id = 0 ∧
    (∀ j, countFor s.timeouts j ≤ 1 →
      countFor (scheduleNotification s id t1 b1 d1).timeouts j ≤ 1) := by
  have hset : scheduleNotification (scheduleNotification s id t1 b1 d1) id t2 b2 d2
      = { s with timeouts :=
            eraseKey s.timeouts id ++ [(id, { title := t2, body := b2, delay := d2 })] } := by
    simp [scheduleNotification, hperm, eraseKey_append, eraseKey_eraseKey_self, eraseKey]
  rw [hset]
  refine ⟨countFor_set _ _ _, getEntry_set _ _ _, ?_, ?_, ?_, ?_⟩
  · simp [fireTimer, getEntry_set, showNotification, hperm]
  · simp [fireTimer, getEntry_set, showNotification, hperm, eraseKey_append,
      eraseKey_eraseKey_self, eraseKey, countFor_eraseKey_self, countFor]
  · simp [cancelNotification, eraseKey_append, eraseKey_eraseKey_self, eraseKey,
      countFor_eraseKey_self, countFor]
  · intro j hj
    by_cases hje : j = id
    · subst hje
      simp [scheduleNotification, hperm, countFor_set]
    · have hij : ¬ id = j := fun hh => hje hh.symm
      simp only [scheduleNotification, hperm, if_pos]
      rw [countFor_append, countFor_eraseKey_ne _ _ _ hje]
      simp [countFor, hij]
      omega

/-- Closed instance of c2_registry_single_entry at a concrete input. -/
theorem c2_registry_single_entry_witness :
    getEntry (scheduleNotification (scheduleNotification sg "A" "T1" "B1" 5) "A" "T2" "B2" 9).timeouts
        "A" = some { title := "T2", body := "B2", delay := 9 } :=
  (c2_registry_single_entry sg "A" "T1" "B1" "T2" "B2" 5 9 rfl).2.1

theorem countFor_eraseKey_le (r : List (String × PendingTimer)) (i j : String) :
    countFor (eraseKey r i) j ≤ countFor r j := by
  by_cases h : j = i
  · subst h
    rw [countFor_eraseKey_self]
    exact Nat.zero_le _
  · rw [countFor_eraseKey_ne _ _ _ h]

theorem showNotification_timeouts (s : NotifState) (title body tag : String) :
    (showNotification s title body tag).timeouts = s.timeouts := by
  unfold showNotification
  split <;> rfl

theorem showNotification_checkInterval (s : NotifState) (title body tag : String) :
    (showNotification s title body tag).checkInterval = s.checkInterval := by
  unfold showNotification
  split <;> rfl

theorem showNotification_hostIntervals (s : NotifState) (title body tag : String) :
    (showNotification s title body tag).hostIntervals = s.hostIntervals := by
  unfold showNotification
  split <;> rfl

theorem showNotification_nextToken (s : NotifState) (title body tag : String) :
    (showNotification s title body tag).nextToken = s.nextToken := by
  unfold showNotification
  split <;> rfl

theorem showNotification_permission (s : NotifState) (title body tag : String) :
    (showNotification s title body tag).permission = s.permission := by
  unfold showNotification
  split <;> rfl

/-- checkOverdueItems changes nothing but the emission log. -/
theorem checkOverdueItems_fst_frame (s : NotifState) (items : List RevisionItem)
    (now : Int) :
    (checkOverdueItems s items now).1.permission = s.permission ∧
    (checkOverdueItems s items now).1.checkInterval = s.checkInterval ∧
    (checkOverdueItems s items now).1.hostIntervals = s.hostIntervals ∧
    (checkOverdueItems s items now).1.nextToken = s.nextToken ∧
    (checkOverdueItems s items now).1.timeouts = s.timeouts := by
  simp only [checkOverdueItems]
  generalize items.filter (isOverdueItem now) = l
  induction l generalizing s with
  | nil => exact ⟨rfl, rfl, rfl, rfl, rfl⟩
  | cons a l ih =>
      rw [List.foldl_cons]
      refine ⟨?_, ?_, ?_, ?_, ?_⟩
      · rw [(ih _).1, showNotification_permission]
      · rw [(ih _).2.1, showNotification_checkInterval]
      · rw [(ih _).2.2.1, showNotification_hostIntervals]
      · rw [(ih _).2.2.2.1, showNotification_nextToken]
      · rw [(ih _).2.2.2.2, showNotification_timeouts]

theorem scheduleRevisionReminder_ungranted (s : NotifState) (itemId itemTitle : String)
    (nrt : Option Int) (now : Int)
    (h : s.permission ≠ NotificationPermission.granted) :
    scheduleRevisionReminder s itemId itemTitle nrt now = s := by
  cases nrt with
  | none => rfl
  | some nr =>
      simp only [scheduleRevisionReminder]
      split
      · exact showNotification_ungranted _ _ _ _ h
      · split
        · simp [scheduleNotification, h]
        · rfl

/-- Claim C3 counterexample: in the fresh state with permission still
default, startPeriodicCheck nevertheless arms the periodic sweeper: the
sweeper handle goes from none to an armed 5-minute interval, refuting the
claim that every scheduling and sweeping operation leaves all handles
unmutated when permission is not granted. -/
theorem c3_ungated_sweeper_counterexample :
    s0.permission ≠ NotificationPermission.granted ∧
    s0.checkInterval = none ∧
    s0.hostIntervals = [] ∧
    (startPeriodicCheck s0 [] 0).checkInterval = some 0 ∧
    (startPeriodicCheck s0 [] 0).hostIntervals = [(0, 5 * 60 * 1000)] := by
  exact ⟨by decide, rfl, rfl, by decide, by decide⟩

/-- Claim C3 amended: when permission is not granted, showNotification,
scheduleNotification and scheduleRevisionReminder are complete no-ops, and
checkOverdueItems mutates no state (it still returns its subset); but
startPeriodicCheck is not permission-gated: it leaves the registry and the
emission log unchanged yet still installs the periodic sweeper and stores
its handle. -/
theorem c3_permission_gating (s : NotifState)
    (id title body tag itemTitle : String) (delay : Int) (nrt : Option Int)
    (now : Int) (items : List RevisionItem)
    (h : s.permission ≠ NotificationPermission.granted) :
    showNotification s title body tag = s ∧
    scheduleNotification s id title body delay = s ∧
    scheduleRevisionReminder s id itemTitle nrt now = s ∧
    (checkOverdueItems s items now).1 = s ∧
    (startPeriodicCheck s items now).timeouts = s.timeouts ∧
    (startPeriodicCheck s items now).emitted = s.emitted ∧
    (startPeriodicCheck s items now).checkInterval = some s.nextToken := by
  refine ⟨showNotification_ungranted _ _ _ _ h, by simp [scheduleNotification, h],
    scheduleRevisionReminder_ungranted _ _ _ _ _ h,
    checkOverdueItems_fst_ungranted _ _ _ h, ?_, ?_, ?_⟩
  · cases hc : s.checkInterval with
    | none =>
        simp only [startPeriodicCheck, hc]
        rw [(checkOverdueItems_fst_frame _ _ _).2.2.2.2]
    | some tok =>
        simp only [startPeriodicCheck, hc]
        rw [(checkOverdueItems_fst_frame _ _ _).2.2.2.2]
  · cases hc : s.checkInterval with
    | none =>
        have hu := checkOverdueItems_fst_ungranted s items now h
        simp only [startPeriodicCheck, hc]
        rw [hu]
    | some tok =>
        have hu := checkOverdueItems_fst_ungranted
          ({ s with hostIntervals := s.hostIntervals.filter (fun p => p.1 ≠ tok) })
          items now h
        rw [hc] at hu
        simp only [startPeriodicCheck, hc]
        rw [hu]
  · cases hc : s.checkInterval with
    | none =>
        simp only [startPeriodicCheck, hc]
        rw [(checkOverdueItems_fst_frame _ _ _).2.2.2.1]
    | some tok =>
        simp only [startPeriodicCheck, hc]
        rw [(checkOverdueItems_fst_frame _ _ _).2.2.2.1]

/-- Closed instance of c3_permission_gating at a concrete input. -/
theorem c3_permission_gating_witness :
    scheduleRevisionReminder s0 "A" "TT" (some 50) 0 = s0 :=
  (c3_permission_gating s0 "A" "T" "B" "G" "TT" 5 (some 50) 0 [] (by decide)).2.2.1

/-- Claim C4 counterexample: with permission granted, an item whose
next-review value is absent or unparseable (NaN date) is silently dropped
by scheduleRevisionReminder: no notification is emitted and no timer is
installed; and checkOverdueItems does not classify it as overdue. This
refutes the claim that such items are treated as Immediate. -/
theorem c4_malformed_counterexample :
    sg.permission = NotificationPermission.granted ∧
    (scheduleRevisionReminder sg "M" "Malformed" none 1000).emitted = [] ∧
    (scheduleRevisionReminder sg "M" "Malformed" none 1000).timeouts = [] ∧
    (checkOverdueItems sg
      [{ id := "M", title := "Malformed", review_count := 0, next_review := none }]
      1000).2 = [] := by
  exact ⟨rfl, rfl, rfl, rfl⟩

/-- Claim C4 amended: an absent or unparseable next-review value makes
scheduleRevisionReminder a complete no-op (no emit, no registry entry,
since the NaN delay fails both the immediate and the deferred test), and
the overdue check never classifies such an item as overdue. -/
theorem c4_malformed_noop (s : NotifState) (itemId itemTitle : String) (now : Int)
    (items : List RevisionItem) :
    scheduleRevisionReminder s itemId itemTitle none now = s ∧
    ∀ it ∈ (checkOverdueItems s items now).2, it.next_review ≠ none := by
  refine ⟨rfl, ?_⟩
  intro it hit hnone
  rw [checkOverdueItems_snd, List.mem_filter] at hit
  have hfalse : isOverdueItem now it = false := by simp [isOverdueItem, hnone]
  rw [hfalse] at hit
  exact Bool.false_ne_true hit.2

/-- Closed instance of c4_malformed_noop at a concrete input. -/
theorem c4_malformed_noop_witness :
    scheduleRevisionReminder sg "M" "T" none 5 = sg :=
  (c4_malformed_noop sg "M" "T" 5 []).1

/-- Under the sweeper invariant, the cleanup closure clears the armed
interval and nulls the ref. -/
theorem stopPeriodicCheck_inv (s : NotifState) (hinv : sweeperInv s) :
    (stopPeriodicCheck s).hostIntervals = [] ∧
    (stopPeriodicCheck s).checkInterval = none := by
  obtain ⟨h1, _⟩ := hinv
  cases hc : s.checkInterval with
  | none =>
      rw [hc] at h1
      simp only [stopPeriodicCheck, hc]
      exact ⟨by simpa using h1, trivial⟩
  | some tok =>
      rw [hc] at h1
      simp only [stopPeriodicCheck, hc]
      refine ⟨?_, trivial⟩
      rw [h1]
      simp

/-- Claim C5: in any state satisfying the sweeper invariant, after
stopAllNotifications the scheduled count is zero and the registry is
empty, no pending timer can ever fire, and no sweep tick occurs until
startPeriodicCheck is called again, which re-arms the interval. -/
theorem c5_stopAll_clears (s : NotifState) (items : List RevisionItem) (now : Int)
    (id : String) (hinv : sweeperInv s) :
    getScheduledCount (stopAllNotifications s) = 0 ∧
    (stopAllNotifications s).timeouts = [] ∧
    fireTimer (stopAllNotifications s) id = stopAllNotifications s ∧
    sweepTick (stopAllNotifications s) items now = stopAllNotifications s ∧
    (startPeriodicCheck (stopAllNotifications s) items now).hostIntervals
      = [((stopAllNotifications s).nextToken, 5 * 60 * 1000)] := by
  obtain ⟨hhi, hck⟩ := stopPeriodicCheck_inv s hinv
  have ht : (stopAllNotifications s).timeouts = [] := by
    simp [stopAllNotifications]
  have hhi2 : (stopAllNotifications s).hostIntervals = [] := by
    simp [stopAllNotifications, hhi]
  have hck2 : (stopAllNotifications s).checkInterval = none := by
    simp [stopAllNotifications, hck]
  refine ⟨?_, ht, ?_, ?_, ?_⟩
  · simp [getScheduledCount, ht]
  · simp [fireTimer, ht, getEntry]
  · simp [sweepTick, hhi2]
  · simp only [startPeriodicCheck, hck2]
    rw [(checkOverdueItems_fst_frame _ _ _).2.2.1,
      (checkOverdueItems_fst_frame _ _ _).2.2.2.1, hhi2]
    rfl

/-- Closed instance of c5_stopAll_clears at a concrete input. -/
theorem c5_stopAll_clears_witness :
    getScheduledCount (stopAllNotifications sg) = 0 :=
  (c5_stopAll_clears sg [] 0 "A" ⟨rfl, by simp [sg]⟩).1

/-- Claim C6: under the sweeper invariant, startPeriodicCheck first
cancels any existing sweeper interval (the old token is no longer live),
performs one immediate overdue evaluation of the item set, arms exactly
one interval with the fixed 5-minute period (so at most one sweeper is
ever active), preserves the invariant, its cleanup cancels the periodic
tick, and a subsequent tick repeats the checkOverdueItems evaluation. -/
theorem c6_single_sweeper (s : NotifState) (items : List RevisionItem) (now : Int)
    (hinv : sweeperInv s) :
    (startPeriodicCheck s items now).hostIntervals = [(s.nextToken, 5 * 60 * 1000)] ∧
    (∀ tok, s.checkInterval = some tok →
      ¬ ((tok, (5 : Int) * 60 * 1000) ∈ (startPeriodicCheck s items now).hostIntervals)) ∧
    (startPeriodicCheck s items now).emitted
      = s.emitted ++ (if s.permission = NotificationPermission.granted
          then (items.filter (isOverdueItem now)).map overdueEmit else []) ∧
    sweeperInv (startPeriodicCheck s items now) ∧
    (stopPeriodicCheck (startPeriodicCheck s items now)).hostIntervals = [] ∧
    (stopPeriodicCheck (startPeriodicCheck s items now)).checkInterval = none ∧
    (∀ (items2 : List RevisionItem) (now2 : Int),
      sweepTick (startPeriodicCheck s items now) items2 now2
        = (checkOverdueItems (startPeriodicCheck s items now) items2 now2).1) := by
  obtain ⟨h1, h2⟩ := hinv
  have hhi : (startPeriodicCheck s items now).hostIntervals
      = [(s.nextToken, 5 * 60 * 1000)] := by
    cases hc : s.checkInterval with
    | none =>
        rw [hc] at h1
        simp only [startPeriodicCheck, hc]
        rw [(checkOverdueItems_fst_frame _ _ _).2.2.1,
          (checkOverdueItems_fst_frame _ _ _).2.2.2.1, h1]
        rfl
    | some tok =>
        rw [hc] at h1
        simp only [startPeriodicCheck, hc]
        rw [(checkOverdueItems_fst_frame _ _ _).2.2.1,
          (checkOverdueItems_fst_frame _ _ _).2.2.2.1]
        simp only []
        rw [h1]
        simp
  have hck : (startPeriodicCheck s items now).checkInterval = some s.nextToken := by
    cases hc : s.checkInterval with
    | none =>
        simp only [startPeriodicCheck, hc]
        rw [(checkOverdueItems_fst_frame _ _ _).2.2.2.1]
    | some tok =>
        simp only [startPeriodicCheck, hc]
        rw [(checkOverdueItems_fst_frame _ _ _).2.2.2.1]
  have hnt : (startPeriodicCheck s items now).nextToken = s.nextToken + 1 := by
    cases hc : s.checkInterval with
    | none =>
        simp only [startPeriodicCheck, hc]
        rw [(checkOverdueItems_fst_frame _ _ _).2.2.2.1]
    | some tok =>
        simp only [startPeriodicCheck, hc]
        rw [(checkOverdueItems_fst_frame _ _ _).2.2.2.1]
  have hem : (startPeriodicCheck s items now).emitted
      = s.emitted ++ (if s.permission = NotificationPermission.granted
          then (items.filter (isOverdueItem now)).map overdueEmit else []) := by
    by_cases hp : s.permission = NotificationPermission.granted
    · cases hc : s.checkInterval with
      | none =>
          have hg := checkOverdueItems_fst_granted s items now hp
          simp only [startPeriodicCheck, hc]
          rw [hg]
          simp [hp]
      | some tok =>
          have hg := checkOverdueItems_fst_granted
            ({ s with hostIntervals := s.hostIntervals.filter (fun p => p.1 ≠ tok) })
            items now hp
          rw [hc] at hg
          simp only [startPeriodicCheck, hc]
          rw [hg]
          simp [hp]
    · cases hc : s.checkInterval with
      | none =>
          have hg := checkOverdueItems_fst_ungranted s items now hp
          simp only [startPeriodicCheck, hc]
          rw [hg]
          simp [hp]
      | some tok =>
          have hg := checkOverdueItems_fst_ungranted
            ({ s with hostIntervals := s.hostIntervals.filter (fun p => p.1 ≠ tok) })
            items now hp
          rw [hc] at hg
          simp only [startPeriodicCheck, hc]
          rw [hg]
          simp [hp]
  have hinv2 : sweeperInv (startPeriodicCheck s items now) := by
    constructor
    · simp [hhi, hck]
    · rw [hck]
      intro tok htok
      rw [hnt]
      simp only [Option.toList_some, List.mem_singleton] at htok
      omega
  have hold : ∀ tok, s.checkInterval = some tok →
      ¬ ((tok, (5 : Int) * 60 * 1000) ∈ (startPeriodicCheck s items now).hostIntervals) := by
    intro tok htok hmem
    rw [hhi] at hmem
    simp only [List.mem_singleton, Prod.mk.injEq] at hmem
    have hlt := h2 tok (by simp [htok])
    omega
  obtain ⟨hsp1, hsp2⟩ := stopPeriodicCheck_inv _ hinv2
  refine ⟨hhi, hold, hem, hinv2, hsp1, hsp2, ?_⟩
  intro items2 now2
  simp [sweepTick, hhi]

/-- Closed instance of c6_single_sweeper at a concrete input. -/
theorem c6_single_sweeper_witness :
    (startPeriodicCheck sg [] 0).hostIntervals = [(0, 5 * 60 * 1000)] :=
  (c6_single_sweeper sg [] 0 ⟨rfl, by simp [sg]⟩).1

/-- Claim C7: the interval table is 1 h, 1 d, 3 d, 1 w, 2 w in
milliseconds; nextDelay 0 = 1 h, nextDelay 3 = 1 w, nextDelay 10 = 2 w;
inside the table the lookup is by index, and from the last index on every
review count reuses the final (longest) entry. -/
theorem c7_nextDelay_clamped :
    intervals = [60 * 60 * 1000, 24 * 60 * 60 * 1000, 3 * 24 * 60 * 60 * 1000,
      7 * 24 * 60 * 60 * 1000, 14 * 24 * 60 * 60 * 1000] ∧
    nextDelay 0 = 60 * 60 * 1000 ∧
    nextDelay 3 = 7 * 24 * 60 * 60 * 1000 ∧
    nextDelay 10 = 14 * 24 * 60 * 60 * 1000 ∧
    (∀ rc : Nat, intervals.length - 1 ≤ rc → nextDelay rc = 14 * 24 * 60 * 60 * 1000) ∧
    (∀ rc : Nat, rc < intervals.length → nextDelay rc = intervals.getD rc 0) := by
  refine ⟨by decide, by decide, by decide, by decide, ?_, ?_⟩
  · intro rc h
    have hlen : intervals.length - 1 = 4 := by decide
    rw [hlen] at h
    have hmin : min rc (intervals.length - 1) = 4 := by
      rw [hlen]
      omega
    rw [nextDelay, hmin]
    decide
  · intro rc h
    have hlen : intervals.length = 5 := by decide
    rw [hlen] at h
    have hmin : min rc (intervals.length - 1) = rc := by
      have : intervals.length - 1 = 4 := by decide
      rw [this]
      omega
    rw [nextDelay, hmin]

/-- Closed instance of c7_nextDelay_clamped at a concrete input. -/
theorem c7_nextDelay_clamped_witness : nextDelay 7 = 14 * 24 * 60 * 60 * 1000 :=
  c7_nextDelay_clamped.2.2.2.2.1 7 (by decide)

/-- Claim C8 evidence at the failing input (item A, review count 0,
reviewed at now = 0, permission granted): the code stores
next_review = now + 24 h (86400000 ms), not now + 1 h, and the single
pending timer for A carries delay 86400000 ms, not about 3600 s, even
though the interval table entry for review count 0 is 3600000 ms; the
table-based two-argument call in handleReview contributes nothing because
its undefined date parses to NaN. -/
theorem c8_review_divergence :
    (handleReview sg itemA 0).2.next_review = some 86400000 ∧
    (handleReview sg itemA 0).2.review_count = 1 ∧
    ((handleReview sg itemA 0).1.timeouts.map (fun p => (p.1, p.2.delay)))
      = [("A", 86400000)] ∧
    nextDelay itemA.review_count = 3600000 ∧
    (handleReview sg itemA 0).1.emitted = [] := by
  exact ⟨rfl, rfl, rfl, by decide, rfl⟩

/-- Claim C9: with permission granted, checkOverdueItems returns exactly
the items whose parsed next-review instant is at or before now, emits
exactly one notification per returned item in order, each tagged with that
item's id (overdueEmit), and leaves the timer registry untouched. -/
theorem c9_checkOverdue_exact (s : NotifState) (items : List RevisionItem) (now : Int)
    (hperm : s.permission = NotificationPermission.granted) :
    (checkOverdueItems s items now).2 = items.filter (isOverdueItem now) ∧
    (checkOverdueItems s items now).1.emitted
      = s.emitted ++ ((checkOverdueItems s items now).2).map overdueEmit ∧
    (∀ it : RevisionItem, (overdueEmit it).tag = it.id) ∧
    (checkOverdueItems s items now).1.timeouts = s.timeouts := by
  refine ⟨checkOverdueItems_snd _ _ _, ?_, fun it => rfl,
    (checkOverdueItems_fst_frame _ _ _).2.2.2.2⟩
  rw [checkOverdueItems_fst_granted _ _ _ hperm, checkOverdueItems_snd]

/-- Closed instance of c9_checkOverdue_exact: the ten-minutes-overdue item
B is returned and triggers one emit tagged with its id. -/
theorem c9_checkOverdue_exact_witness :
    (checkOverdueItems sg [itemB] 0).2 = [itemB] ∧
    (checkOverdueItems sg [itemB] 0).1.emitted = [overdueEmit itemB] := by
  have h := c9_checkOverdue_exact sg [itemB] 0 rfl
  refine ⟨by rw [h.1]; decide, ?_⟩
  rw [h.2.1, h.1]
  decide

/-- Claim C10: the overdue subset returned by checkOverdueItems does not
depend on the permission state or on any other part of the hook state:
runs over the same items at the same clock reading from a granted state
and from an ungranted state return the same subset, any two states return
the same subset, and that subset is the deterministic filter of the item
list by the clock reading. -/
theorem c10_overdue_state_independent (s1 s2 : NotifState)
    (items : List RevisionItem) (now : Int)
    (h1 : s1.permission = NotificationPermission.granted)
    (h2 : s2.permission ≠ NotificationPermission.granted) :
    (checkOverdueItems s1 items now).2 = (checkOverdueItems s2 items now).2 ∧
    (∀ t1 t2 : NotifState,
      (checkOverdueItems t1 items now).2 = (checkOverdueItems t2 items now).2) ∧
    (checkOverdueItems s1 items now).2 = items.filter (isOverdueItem now) := by
  exact ⟨rfl, fun _ _ => rfl, rfl⟩

/-- Closed instance of c10_overdue_state_independent at a concrete input. -/
theorem c10_overdue_state_independent_witness :
    (checkOverdueItems sg [itemB] 0).2 = (checkOverdueItems s0 [itemB] 0).2 :=
  (c10_overdue_state_independent sg s0 [itemB] 0 rfl (by decide)).1
